import Mathlib

/-!
# Verification of the tls-stats normalization-join-aggregation engine

Shallow embedding of the Go package `stats` (files `analysis.go` and the
model/report file) of the `adedayo/tls-stats` repository, together with
theorems settling the spec's claims about it.

Modelling conventions:
* Go `int64` / `int` values are modelled as `Int` (the claims do not
  exercise overflow).
* Go `float64` percentages are modelled as exact rationals `ℚ`; the
  divergences proved below are integral (e.g. a sum of 4 vs 1) and thus
  far outside any floating-point tolerance.
* Go maps are modelled as association lists built in insertion order with
  last-write-wins updates (`mapPut`) and in-place numeric bumps (`bumpBy`),
  matching the `if present { update } else { insert }` idiom of the source.
* Go's nondeterministic map iteration order together with the unstable
  `sort.Sort` is modelled relationally: `goSortSpec l out` says `out` is a
  possible result of `sort.Sort` on some iteration order of the map whose
  entries are `l` (a permutation that is sorted for the source comparator
  `kv.Less`).
* The static version-collapsing tables (`chromeVers`, `firefoxVers`, ...)
  and the standard cipher/curve name tables (`CipherSuiteMap`,
  `NamedCurves`) are defined in a repository file that is not part of the
  sources given here; they are taken as parameters (`VersionTables`,
  name-resolution functions), which is faithful because the source treats
  them as opaque static lookup tables.
-/

namespace TlsStats

/-- Go struct `Browser` (model file): a usage record. The `date` is an
abstract day number; it never influences the join. -/
structure Browser where
  date : Int
  browserFamily : String
  browserMajorVersion : String
  osFamily : String
  osMajorVersion : String
  count : Int
  deriving DecidableEq, Repr

/-- Go struct `Device` (model file): a capability profile. -/
structure Device where
  name : String
  platform : String
  version : String
  lowestProtocol : Int
  highestProtocol : Int
  suiteIds : List Int
  suiteNames : List String
  ellipticCurves : List Int
  deriving DecidableEq, Repr

/-- Lookup in a Go map modelled as an association list (`m[k]`): the value
at the first entry carrying the key. -/
def mapGet {α : Type} : List (String × α) → String → Option α
  | [], _ => none
  | p :: m, k => if p.1 = k then some p.2 else mapGet m k

/-- Lookup in a Go map with integer keys (`m[k]`). -/
def imapGet {α : Type} : List (Int × α) → Int → Option α
  | [], _ => none
  | p :: m, k => if p.1 = k then some p.2 else imapGet m k

/-- Go map update `m[k] = v`: overwrite the existing entry if present
(last write wins), otherwise append a fresh entry. -/
def mapPut {α : Type} (m : List (String × α)) (k : String) (v : α) : List (String × α) :=
  if (mapGet m k).isSome then
    m.map (fun p => if p.1 = k then (k, v) else p)
  else m ++ [(k, v)]

/-- The Go idiom `if c, ok := m[k]; ok { m[k] = c + inc } else { m[k] = inc }`
for integer-keyed count maps. -/
def bumpBy (m : List (Int × Int)) (k : Int) (inc : Int) : List (Int × Int) :=
  match imapGet m k with
  | some c => m.map (fun p => if p.1 = k then (k, c + inc) else p)
  | none => m ++ [(k, inc)]

/-- The same idiom for string-keyed count maps (used for `browserMap` and
the unmatched diagnostic map `m` in `analyseStats`). -/
def sbumpBy (m : List (String × Int)) (k : String) (inc : Int) : List (String × Int) :=
  match mapGet m k with
  | some c => m.map (fun p => if p.1 = k then (k, c + inc) else p)
  | none => m ++ [(k, inc)]

/-- Value of a count map at a key, reading a missing key as `0` (Go's zero
value convention for map reads). -/
def tallyGet (m : List (Int × Int)) (k : Int) : Int :=
  (imapGet m k).getD 0

/-- Value of a string-keyed count map at a key, missing read as `0`. -/
def stallyGet (m : List (String × Int)) (k : String) : Int :=
  (mapGet m k).getD 0

/-- Faithful model of Go `strings.Split(s, sep)` for a one-character
separator, by structural recursion over the character list. -/
def splitCharAux (sep : Char) : List Char → List Char → List String
  | [], acc => [String.mk acc.reverse]
  | c :: rest, acc =>
    if c = sep then String.mk acc.reverse :: splitCharAux sep rest []
    else splitCharAux sep rest (c :: acc)

/-- `strings.Split(s, ":")` as used by `collapseVersion`. -/
def splitColon (s : String) : List String :=
  splitCharAux ':' s.data []

/-- The static per-family version-collapsing tables (`chromeVers`, ...).
They live in a repository file outside the given sources; the source reads
them only via map lookup, so they are parameters of the model. -/
structure VersionTables where
  chromeVers : List (String × String)
  firefoxVers : List (String × String)
  androidVers : List (String × String)
  safariVers : List (String × String)
  operaVers : List (String × String)
  edgeVers : List (String × String)
  ieVers : List (String × String)
  deriving Repr

/-- Lookup in one of the static version tables (a Go map read). -/
def lookupVers : List (String × String) → String → Option String
  | [], _ => none
  | p :: t, k => if p.1 = k then some p.2 else lookupVers t k

/-- Go `dedupFamily` (analysis.go): the family-alias switch, translated
case by case; a Go `switch` on a string is a sequential equality chain. -/
def dedupFamily (browser : String) : String :=
  if browser = "Chrome Mobile" then "Chrome"
  else if browser = "Chrome Mobile WebView" then "Chrome"
  else if browser = "Chrome Mobile iOS" then "Chrome"
  else if browser = "Chromium" then "Chrome"
  else if browser = "Firefox Mobile" then "Firefox"
  else if browser = "Thunderbird" then "Firefox"
  else if browser = "Firefox iOS" then "Firefox"
  else if browser = "Opera Mini" then "Opera"
  else if browser = "Opera Mobile" then "Opera"
  else if browser = "Mobile Safari" then "Safari"
  else if browser = "Mobile Safari UIWebView" then "Safari"
  else if browser = "Mobile Safari UI/WKWebView" then "Safari"
  else if browser = "Samsung Internet" then "Android"
  else if browser = "IE Mobile" then "IE"
  else if browser = "Edge Mobile" then "Edge"
  else browser

/-- Go `collapseVersion` (analysis.go): split `"family:version"`, and if the
family has a version-collapsing table containing the version, rewrite the
version; otherwise return the input unchanged. -/
def collapseVersion (t : VersionTables) (browser : String) : String :=
  match splitColon browser with
  | [fam, ver] =>
    if fam = "Chrome" then
      match lookupVers t.chromeVers ver with
      | some nv => fam ++ ":" ++ nv
      | none => browser
    else if fam = "Firefox" then
      match lookupVers t.firefoxVers ver with
      | some nv => fam ++ ":" ++ nv
      | none => browser
    else if fam = "Android" then
      match lookupVers t.androidVers ver with
      | some nv => fam ++ ":" ++ nv
      | none => browser
    else if fam = "Safari" then
      match lookupVers t.safariVers ver with
      | some nv => fam ++ ":" ++ nv
      | none => browser
    else if fam = "Opera" then
      match lookupVers t.operaVers ver with
      | some nv => fam ++ ":" ++ nv
      | none => browser
    else if fam = "Edge" then
      match lookupVers t.edgeVers ver with
      | some nv => fam ++ ":" ++ nv
      | none => browser
    else if fam = "IE" then
      match lookupVers t.ieVers ver with
      | some nv => fam ++ ":" ++ nv
      | none => browser
    else browser
  | _ => browser

/-- Go `browserKey` (analysis.go): the JoinKey of a usage record,
`collapseVersion(sprintf("%s:%s", dedupFamily(family), majorVersion))`. -/
def browserKey (t : VersionTables) (browser : Browser) : String :=
  collapseVersion t (dedupFamily browser.browserFamily ++ ":" ++ browser.browserMajorVersion)

/-- Go `deviceKey` (analysis.go): `sprintf("%s:%s", device.Name, device.Version)`. -/
def deviceKey (device : Device) : String :=
  device.name ++ ":" ++ device.version

/-- Go struct `TLSStats` (model file): the aggregate tally. The unexported
sorted slices `protocols`/`ciphers`/`curves` are modelled relationally by
`goSortSpec` below rather than as fields, because both the map iteration
order feeding `sort.Sort` and the unstable sort are nondeterministic. -/
structure TLSStats where
  protocols : List (Int × Int)
  ciphers : List (Int × Int)
  curves : List (Int × Int)
  total : Int
  devices : List Device
  deriving DecidableEq, Repr

/-- The device-keyed map `deviceKeys` built at the start of Go `getTLSStats`
by `for _, d := range devices { deviceKeys[deviceKey(d)] = d }`
(last write wins on duplicate keys). -/
def buildDeviceMap (devices : List Device) : List (String × Device) :=
  devices.foldl (fun m d => mapPut m (deviceKey d) d) []

/-- The inclusive Go loop `for p := lo; p <= hi; p++` as the list of visited
protocol identifiers; empty when `hi < lo`. -/
def protoRange (lo hi : Int) : List Int :=
  (List.range (hi + 1 - lo).toNat).map (fun i => lo + i)

/-- One iteration of the main loop of Go `getTLSStats` for a map entry
`(b, c)` of the browser-weight map: `total += c` happens unconditionally,
then, if a device matches the key, the protocol range (floored at 768),
cipher-suite ids and curve ids are each bumped by `c`. -/
def getTLSStatsStep (deviceMap : List (String × Device)) (st : TLSStats)
    (bc : String × Int) : TLSStats :=
  let st := { st with total := st.total + bc.2 }
  match mapGet deviceMap bc.1 with
  | some dev =>
    let lowestProtocol : Int := if dev.lowestProtocol > 768 then dev.lowestProtocol else 768
    { st with
      protocols := (protoRange lowestProtocol dev.highestProtocol).foldl
        (fun m p => bumpBy m p bc.2) st.protocols
      ciphers := dev.suiteIds.foldl (fun m cid => bumpBy m cid bc.2) st.ciphers
      curves := dev.ellipticCurves.foldl (fun m cid => bumpBy m cid bc.2) st.curves }
  | none => st

/-- Go `getTLSStats` (analysis.go): fold the step over the entries of the
browser-weight map (given as an association list in some iteration order). -/
def getTLSStats (browsers : List (String × Int)) (devices : List Device) : TLSStats :=
  browsers.foldl (getTLSStatsStep (buildDeviceMap devices))
    ⟨[], [], [], 0, devices⟩

/-- The mutable state of the matching loop of Go `analyseStats`: the
`found`/`notfound` counters, the unmatched diagnostic map `m`, and the
per-key weight map `browserMap`. -/
structure JoinState where
  found : Int
  notfound : Int
  m : List (String × Int)
  browserMap : List (String × Int)
  deriving DecidableEq, Repr

/-- One iteration of the matching loop of Go `analyseStats` for a usage
record `b`: if its JoinKey is a known device key, merge its weight into
`browserMap`; otherwise bump the unmatched diagnostic `m[key]` by one. -/
def joinStep (t : VersionTables) (deviceKeySet : List String) (s : JoinState)
    (b : Browser) : JoinState :=
  let key := browserKey t b
  if deviceKeySet.contains key then
    { s with found := s.found + 1, browserMap := sbumpBy s.browserMap key b.count }
  else
    { s with notfound := s.notfound + 1, m := sbumpBy s.m key 1 }

/-- The matching loop of Go `analyseStats` over all usage records, starting
from empty counters and maps. -/
def joinRecords (t : VersionTables) (browsers : List Browser)
    (deviceKeySet : List String) : JoinState :=
  browsers.foldl (joinStep t deviceKeySet) ⟨0, 0, [], []⟩

/-- The set of device keys built by `for _, d := range devices
{ deviceKeys[deviceKey(d)] = true }` in Go `analyseStats`; only membership
is ever read, so the model keeps the key list. -/
def deviceKeySet (devices : List Device) : List String :=
  devices.map deviceKey

/-- Go `analyseStats` (analysis.go), its pure core: the loaded usage records
and capability profiles are parameters (loading is excluded I/O), and the
result is the aggregate tally `getTLSStats(browserMap, devices)`. The date
range returned alongside in Go is independent of the tally and not needed
by any claim. -/
def analyseStats (t : VersionTables) (browsers : List Browser)
    (devices : List Device) : TLSStats :=
  getTLSStats (joinRecords t browsers (deviceKeySet devices)).browserMap devices

/-- Go struct `intByInt64` (model file): one element of the sortable slice. -/
structure intByInt64 where
  k : Int
  v : Int
  deriving DecidableEq, Repr

/-- Go `kv.Less(i, j)` (model file): `s[i].v > s[j].v` — descending count,
no tie-break of any kind. -/
def kvLess (a b : intByInt64) : Prop :=
  a.v > b.v

instance (a b : intByInt64) : Decidable (kvLess a b) := by
  unfold kvLess; infer_instance

/-- The contract of Go `sort.Sort` applied to a slice built by ranging over
a map with entries `l`: the output `out` is a permutation of the entries
that is sorted for `kv.Less` (no element is `Less` than a predecessor).
Both the map iteration order and the unstable sort are nondeterministic, so
any such `out` is a possible run of `TLSStats.sort`. -/
def goSortSpec (l out : List intByInt64) : Prop :=
  l.Perm out ∧ out.Pairwise (fun a b => ¬ kvLess b a)

/-- The entries of a count map as the sortable slice (Go `TLSStats.sort`
builds it by `for k, v := range m { data = append(data, intByInt64{k, v}) }`;
the iteration order is absorbed by the permutation in `goSortSpec`). -/
def kvList (m : List (Int × Int)) : List intByInt64 :=
  m.map (fun p => ⟨p.1, p.2⟩)

/-- Go struct `Entry` (model file): one report line. `Percent` is a Go
`float64`; it is modelled as an exact rational. -/
structure Entry where
  id : Int
  percent : ℚ
  name : String
  deriving DecidableEq, Repr

/-- Go struct `TLSStatistics` (model file): the persisted report. Dates are
abstract day numbers. -/
structure TLSStatistics where
  generationDate : Int
  startDate : Int
  endDate : Int
  protocols : List Entry
  ciphers : List Entry
  curves : List Entry
  deriving DecidableEq, Repr

/-- Go `getProtocolName` (model file): the switch over the `crypto/tls`
protocol-version constants (SSL30 = 768, ..., TLS13 = 772). -/
def getProtocolName (p : Int) : String :=
  if p = 768 then "SSL v3.0"
  else if p = 769 then "TLS v1.0"
  else if p = 770 then "TLS v1.1"
  else if p = 771 then "TLS v1.2"
  else if p = 772 then "TLS v1.3"
  else "Unknown Protocol"

/-- Go `getCipherName` (model file): the standard table `CipherSuiteMap`
lives outside the given sources and is a parameter; fall back to the
non-standard names gathered from the devices, then to a fixed string. -/
def getCipherName (cipherSuiteMap : Int → Option String)
    (nonStandard : List (Int × String)) (c : Int) : String :=
  match cipherSuiteMap c with
  | some cipher => cipher
  | none =>
    match imapGet nonStandard c with
    | some cipher => cipher
    | none => "Nonstandard Cipher"

/-- Go `getCurveName` (model file): the static table `NamedCurves` lives
outside the given sources and is a parameter. -/
def getCurveName (namedCurves : Int → Option String) (c : Int) : String :=
  match namedCurves c with
  | some curve => curve
  | none => "Nonstandard Curve"

/-- The inner loop of Go `cipherMaps` for one device: walk `SuiteIds` with
its index; when an id is not yet in `out`, read `SuiteNames[ind]` — an
out-of-bounds read is a Go panic, modelled as `none`. The read happens only
in the not-yet-present branch, exactly as in the source. -/
def cipherMapsAux (names : List String) :
    List Int → Nat → List (Int × String) → Option (List (Int × String))
  | [], _, out => some out
  | id :: rest, ind, out =>
    if (imapGet out id).isSome then cipherMapsAux names rest (ind + 1) out
    else
      match names[ind]? with
      | some nm => cipherMapsAux names rest (ind + 1) (out ++ [(id, nm)])
      | none => none

/-- The outer loop of Go `cipherMaps` over the devices. -/
def cipherMapsGo : List Device → List (Int × String) → Option (List (Int × String))
  | [], out => some out
  | d :: rest, out =>
    match cipherMapsAux d.suiteNames d.suiteIds 0 out with
    | some out2 => cipherMapsGo rest out2
    | none => none

/-- Go `cipherMaps` (model file): first-occurrence-wins map from cipher id
to non-standard name; `none` models the index-out-of-range panic. -/
def cipherMaps (devices : List Device) : Option (List (Int × String)) :=
  cipherMapsGo devices []

/-- The entry-building loops of Go `toJSONStruct`: each element of a sorted
slice becomes an `Entry` with `percent = float64(v) / float64(total)`. -/
def toEntries (total : Int) (nameOf : Int → String) (kvs : List intByInt64) : List Entry :=
  kvs.map (fun p => ⟨p.k, (p.v : ℚ) / (total : ℚ), nameOf p.k⟩)

/-- Go `TLSStats.toJSONStruct` (model file). The sorted slices `ps`, `cs`,
`vs` are parameters constrained by `goSortSpec` in the theorems (the sort
itself is nondeterministic); `nonStandard` is the successfully computed
`cipherMaps(stats.devices)`; `genDate` is today at day granularity (the
ambient clock made explicit). -/
def toJSONStruct (cipherSuiteMap namedCurves : Int → Option String)
    (nonStandard : List (Int × String)) (stats : TLSStats)
    (genDate startDate endDate : Int)
    (ps cs vs : List intByInt64) : TLSStatistics :=
  { generationDate := genDate
    startDate := startDate
    endDate := endDate
    protocols := toEntries stats.total getProtocolName ps
    ciphers := toEntries stats.total (getCipherName cipherSuiteMap nonStandard) cs
    curves := toEntries stats.total (getCurveName namedCurves) vs }

/-- The Go zero value of `TLSStatistics` (what a caller receives when the
named return `statistics` is returned before being filled). -/
def zeroTLSStatistics : TLSStatistics :=
  ⟨0, 0, 0, [], [], []⟩

/-- What `GetStats` finds at `jsonStatsOut`: no file, a file whose bytes
fail `json.Unmarshal`, or a file parsing to a report. -/
inductive DiskRead where
  | missing
  | unparsable
  | parsed (r : TLSStatistics)
  deriving DecidableEq

/-- Observable outcome of one `GetStats` call: whether the pipeline was
re-run (`DownloadData` + `analyseAndWriteToFile`), the generation date the
archive file name was derived from (if any rename happened), the returned
report, and whether the returned error is nil. -/
structure GetStatsResult where
  recomputed : Bool
  archivedAs : Option Int
  returned : TLSStatistics
  errorIsNil : Bool
  deriving DecidableEq

/-- Go `renameCurrentStats` (analysis.go): if the current artifact exists
and parses, it is renamed to `tls-stats-<generationDate>.json` — the backup
name is derived from the artifact's own generation date; otherwise nothing
happens. -/
def renameCurrentStats : DiskRead → Option Int
  | .parsed r => some r.generationDate
  | _ => none

/-- Go `GetStats(false)` (analysis.go), with the I/O effects abstracted:
`staleCutoff` is the value of `time.Now().AddDate(0, -6, 0)` (six months
before now) as a day number, and `fresh` is the report that
`analyseAndWriteToFile` would produce (download and write assumed to
succeed; their errors are orthogonal to the claims).

Branches, following the source line by line:
* no file at `jsonStatsOut` → download and recompute;
* file exists: `if data, e := ioutil.ReadFile(...)` declares an inner `e`
  shadowing the named return, and `e = json.Unmarshal(...)` assigns that
  inner `e`; so when reading or parsing fails, control falls through to
  `return` with the outer `e` still nil and `statistics` still the zero
  value — no recomputation;
* file parses: if `GenerationDate` is before the cutoff, archive (via
  `renameCurrentStats`, which re-parses the same file) and recompute,
  otherwise return the parsed report as is. -/
def getStatsNoForce (disk : DiskRead) (staleCutoff : Int)
    (fresh : TLSStatistics) : GetStatsResult :=
  match disk with
  | .missing => ⟨true, none, fresh, true⟩
  | .unparsable => ⟨false, none, zeroTLSStatistics, true⟩
  | .parsed r =>
    if r.generationDate < staleCutoff then
      ⟨true, renameCurrentStats (.parsed r), fresh, true⟩
    else
      ⟨false, none, r, true⟩

/-! ## Concrete inputs used by counterexamples and witnesses -/

/-- Version tables with no collapsing entries (every version passes
through unchanged, the spec's default when no mapping exists). -/
def emptyTables : VersionTables :=
  ⟨[], [], [], [], [], [], []⟩

/-- The CapabilityProfile of the spec's Scenario A. -/
def chromeDevice : Device :=
  ⟨"Chrome", "", "90", 769, 772, [4865], ["TLS_AES_128_GCM_SHA256"], [29]⟩

/-- The UsageRecord of the spec's Scenario A. -/
def chromeRecord : Browser :=
  ⟨0, "Chrome", "90", "Windows", "10", 100⟩

/-- A usage record whose JoinKey matches no capability profile. -/
def unmatchedRecord : Browser :=
  ⟨0, "NoSuchBrowser", "1", "OS", "1", 10⟩

/-! ## Lemmas about the map operations -/

theorem imapGet_append_right {α : Type} (m l : List (Int × α)) (k : Int)
    (h : imapGet m k = none) : imapGet (m ++ l) k = imapGet l k := by
  induction m with
  | nil => simp
  | cons hd tl ih =>
    by_cases hk : hd.1 = k
    · simp [imapGet, hk] at h
    · simp only [imapGet, hk, if_false, List.cons_append] at h ⊢
      exact ih h

theorem imapGet_map_update (m : List (Int × Int)) (k c inc : Int)
    (h : imapGet m k = some c) :
    imapGet (m.map (fun p => if p.1 = k then (k, c + inc) else p)) k
      = some (c + inc) := by
  induction m with
  | nil => simp [imapGet] at h
  | cons hd tl ih =>
    by_cases hk : hd.1 = k
    · simp [imapGet, hk]
    · simp only [imapGet, hk, if_false] at h
      simp only [List.map_cons, imapGet, hk, if_false, if_neg hk]
      exact ih h

theorem tallyGet_bumpBy_self (m : List (Int × Int)) (k inc : Int) :
    tallyGet (bumpBy m k inc) k = tallyGet m k + inc := by
  unfold tallyGet bumpBy
  cases h : imapGet m k with
  | none => simp [imapGet_append_right m [(k, inc)] k h, imapGet, h]
  | some c => simp [imapGet_map_update m k c inc h, h]

theorem mapGet_append_right {α : Type} (m l : List (String × α)) (k : String)
    (h : mapGet m k = none) : mapGet (m ++ l) k = mapGet l k := by
  induction m with
  | nil => simp
  | cons hd tl ih =>
    by_cases hk : hd.1 = k
    · simp [mapGet, hk] at h
    · simp only [mapGet, hk, if_false, List.cons_append] at h ⊢
      exact ih h

theorem mapGet_map_update (m : List (String × Int)) (k : String) (c inc : Int)
    (h : mapGet m k = some c) :
    mapGet (m.map (fun p => if p.1 = k then (k, c + inc) else p)) k
      = some (c + inc) := by
  induction m with
  | nil => simp [mapGet] at h
  | cons hd tl ih =>
    by_cases hk : hd.1 = k
    · simp [mapGet, hk]
    · simp only [mapGet, hk, if_false] at h
      simp only [List.map_cons, mapGet, hk, if_false, if_neg hk]
      exact ih h

theorem stallyGet_sbumpBy_self (m : List (String × Int)) (k : String) (inc : Int) :
    stallyGet (sbumpBy m k inc) k = stallyGet m k + inc := by
  unfold stallyGet sbumpBy
  cases h : mapGet m k with
  | none => simp [mapGet_append_right m [(k, inc)] k h, mapGet, h]
  | some c => simp [mapGet_map_update m k c inc h, h]

theorem imapGet_append_single_other {α : Type} (m : List (Int × α)) (k k' : Int)
    (v : α) (hne : k' ≠ k) : imapGet (m ++ [(k, v)]) k' = imapGet m k' := by
  induction m with
  | nil => simp [imapGet, Ne.symm hne]
  | cons hd tl ih =>
    by_cases hk : hd.1 = k' <;> simp [imapGet, hk, ih]

theorem imapGet_map_update_other (m : List (Int × Int)) (k k' c inc : Int)
    (hne : k' ≠ k) :
    imapGet (m.map (fun p => if p.1 = k then (k, c + inc) else p)) k'
      = imapGet m k' := by
  induction m with
  | nil => simp [imapGet]
  | cons hd tl ih =>
    by_cases hk : hd.1 = k
    · simp [imapGet, hk, Ne.symm hne, ih]
    · by_cases hk' : hd.1 = k' <;> simp [imapGet, hk, hk', hne, ih]

theorem tallyGet_bumpBy_other (m : List (Int × Int)) (k k' inc : Int)
    (hne : k' ≠ k) : tallyGet (bumpBy m k inc) k' = tallyGet m k' := by
  unfold tallyGet bumpBy
  cases h : imapGet m k with
  | none => rw [imapGet_append_single_other m k k' inc hne]
  | some c => rw [imapGet_map_update_other m k k' c inc hne]

/-- Bumping every element of `l` by `inc` adds `inc` times the number of
occurrences to the tally at each key (the cipher/curve inner loops of
`getTLSStats`). -/
theorem tallyGet_foldl_bumpBy (l : List Int) (m : List (Int × Int)) (inc i : Int) :
    tallyGet (l.foldl (fun acc x => bumpBy acc x inc) m) i
      = tallyGet m i + inc * (l.count i : Int) := by
  induction l generalizing m with
  | nil => simp
  | cons hd tl ih =>
    rw [List.foldl_cons, ih]
    by_cases hhd : hd = i
    · subst hhd
      rw [tallyGet_bumpBy_self]
      simp [List.count_cons]
      ring
    · rw [tallyGet_bumpBy_other m hd i inc (fun hh => hhd hh.symm)]
      simp [List.count_cons, Ne.symm hhd, hhd]

/-- The Go loop `for p := lo; p <= hi; p++` visits nothing when `hi < lo`
(the empty protocol range of claim C8). -/
theorem protoRange_eq_nil (lo hi : Int) (h : hi < lo) : protoRange lo hi = [] := by
  unfold protoRange
  have : (hi + 1 - lo).toNat = 0 := by omega
  simp [this]

/-- The protocol floor computed by `getTLSStats` is `max 768 lowestProtocol`. -/
theorem protocolFloor_eq_max (x : Int) :
    (if x > 768 then x else (768 : Int)) = max 768 x := by
  rcases le_or_lt x 768 with h | h
  · simp [not_lt.mpr h, max_eq_left h]
  · simp [h, max_eq_right (le_of_lt h)]

/-- Only the `browserMap` field matters downstream of the matching loop;
its evolution depends on no other field of the loop state. -/
def browserMapStep (t : VersionTables) (dks : List String)
    (bm : List (String × Int)) (b : Browser) : List (String × Int) :=
  if dks.contains (browserKey t b) then sbumpBy bm (browserKey t b) b.count else bm

theorem joinRecords_browserMap_proj (t : VersionTables) (dks : List String)
    (bs : List Browser) (s : JoinState) :
    (bs.foldl (joinStep t dks) s).browserMap
      = bs.foldl (browserMapStep t dks) s.browserMap := by
  induction bs generalizing s with
  | nil => rfl
  | cons hd tl ih =>
    rw [List.foldl_cons, List.foldl_cons, ih]
    congr 1
    by_cases h : browserKey t hd ∈ dks <;> simp [joinStep, browserMapStep, h]

/-- Summing the percent column of an entry sequence gives the summed counts
divided by the total (exact rational arithmetic). -/
theorem toEntries_percent_sum (total : Int) (nameOf : Int → String)
    (kvs : List intByInt64) :
    ((toEntries total nameOf kvs).map Entry.percent).sum
      = ((kvs.map intByInt64.v).sum : ℚ) / (total : ℚ) := by
  induction kvs with
  | nil => simp [toEntries]
  | cons hd tl ih =>
    simp only [toEntries, List.map_cons, List.sum_cons] at ih ⊢
    rw [ih, div_add_div_same]
    norm_cast

/-- Any possible output of the sort yields an entry sequence whose percents
are non-increasing, provided the total is positive. -/
theorem toEntries_pairwise_desc (total : Int) (ht : 0 < total)
    (nameOf : Int → String) (l out : List intByInt64) (h : goSortSpec l out) :
    (toEntries total nameOf out).Pairwise (fun a b => b.percent ≤ a.percent) := by
  unfold toEntries
  refine List.Pairwise.map _ ?_ h.2
  intro a b hab
  have hv : b.v ≤ a.v := not_lt.mp hab
  have hvQ : (b.v : ℚ) ≤ (a.v : ℚ) := by exact_mod_cast hv
  have htQ : (0 : ℚ) ≤ (total : ℚ) := by exact_mod_cast ht.le
  exact div_le_div_of_nonneg_right hvQ htQ

/-- The v-column of the sortable slice built from a count map is the value
column of the map. -/
theorem kvList_map_v (m : List (Int × Int)) :
    (kvList m).map intByInt64.v = m.map Prod.snd := by
  simp [kvList, List.map_map]

/-- The inner loop of cipherMaps cannot run out of names while the index
stays below the length of the name list. -/
theorem cipherMapsAux_isSome (names : List String) (ids : List Int) :
    ∀ (ind : Nat) (out : List (Int × String)), ind + ids.length ≤ names.length →
      (cipherMapsAux names ids ind out).isSome = true := by
  induction ids with
  | nil => intro ind out _; simp [cipherMapsAux]
  | cons id rest ih =>
    intro ind out h
    have hind : ind < names.length := by simp only [List.length_cons] at h; omega
    unfold cipherMapsAux
    rw [List.getElem?_eq_getElem hind]
    by_cases hp : (imapGet out id).isSome = true
    · simpa [hp] using ih (ind + 1) out (by simp only [List.length_cons] at h; omega)
    · simpa [hp] using ih (ind + 1) (out ++ [(id, names[ind])])
        (by simp only [List.length_cons] at h; omega)

/-- The outer loop of cipherMaps succeeds on every device whose name and id
lists are parallel, from any accumulator. -/
theorem cipherMapsGo_isSome : ∀ (devs : List Device) (out : List (Int × String)),
    (∀ d ∈ devs, d.suiteNames.length = d.suiteIds.length) →
    (cipherMapsGo devs out).isSome = true := by
  intro devs
  induction devs with
  | nil => intro out _; simp [cipherMapsGo]
  | cons d rest ih =>
    intro out h
    have hd := h d (List.mem_cons_self d rest)
    have haux := cipherMapsAux_isSome d.suiteNames d.suiteIds 0 out (by omega)
    obtain ⟨out2, hout2⟩ := Option.isSome_iff_exists.mp haux
    unfold cipherMapsGo
    rw [hout2]
    exact ih out2 (fun d' hd' => h d' (List.mem_cons_of_mem _ hd'))

/-! ## Claim theorems -/

/-- The aggregate tally of the spec's Scenario A, reached by running the
aggregation on the matched browser-weight map. -/
def scenarioATally : TLSStats :=
  getTLSStats [("Chrome:90", 100)] [chromeDevice]

/-- A run of the Report Builder on the Scenario A tally, with valid sorted
slices for all three tallies and with empty standard name tables (names do
not influence percents). -/
def scenarioAReport : TLSStatistics :=
  toJSONStruct (fun _ => none) (fun _ => none) [(4865, "TLS_AES_128_GCM_SHA256")]
    scenarioATally 0 0 0
    [⟨769, 100⟩, ⟨770, 100⟩, ⟨771, 100⟩, ⟨772, 100⟩] [⟨4865, 100⟩] [⟨29, 100⟩]

/-- Claim C1, counterexample: on the Scenario A tally (totalWeight = 100 > 0,
reached from the aggregation engine itself), a run of the Report Builder on
valid sorted slices produces a protocols sequence whose percents sum to 4,
not 1 within any 1e-9 tolerance: each matched profile adds its full weight
to every protocol in its supported range, so the per-item adoption shares
do not partition the population. -/
theorem percent_sum_scenarioA_ne_one :
    0 < scenarioATally.total ∧
    goSortSpec (kvList scenarioATally.protocols)
      [⟨769, 100⟩, ⟨770, 100⟩, ⟨771, 100⟩, ⟨772, 100⟩] ∧
    goSortSpec (kvList scenarioATally.ciphers) [⟨4865, 100⟩] ∧
    goSortSpec (kvList scenarioATally.curves) [⟨29, 100⟩] ∧
    ((scenarioAReport.protocols.map Entry.percent).sum = 4) ∧
    ¬ |(scenarioAReport.protocols.map Entry.percent).sum - 1| ≤ 1 / 1000000000 := by
  have hsum : (scenarioAReport.protocols.map Entry.percent).sum = 4 := by
    have h : scenarioAReport.protocols.map Entry.percent
        = [((100 : Int) : ℚ) / ((100 : Int) : ℚ), ((100 : Int) : ℚ) / ((100 : Int) : ℚ),
           ((100 : Int) : ℚ) / ((100 : Int) : ℚ), ((100 : Int) : ℚ) / ((100 : Int) : ℚ)] := rfl
    rw [h]
    norm_num
  refine ⟨by decide, ⟨List.Perm.refl _, by decide⟩, ⟨List.Perm.refl _, by decide⟩,
    ⟨List.Perm.refl _, by decide⟩, hsum, ?_⟩
  rw [hsum]
  norm_num

/-- Claim C1, amended: for every run of the Report Builder on an
AggregateTally, the percent values within each of the three ReportEntry
sequences sum to the total count of the corresponding tally map divided by
totalWeight (count over totalWeight of matched records only per entry) —
not to 1.0 in general. -/
theorem toJSONStruct_percent_sums (cm nc : Int → Option String)
    (ns : List (Int × String)) (stats : TLSStats) (gd sd ed : Int)
    (ps cs vs : List intByInt64)
    (hp : goSortSpec (kvList stats.protocols) ps)
    (hc : goSortSpec (kvList stats.ciphers) cs)
    (hv : goSortSpec (kvList stats.curves) vs) :
    (((toJSONStruct cm nc ns stats gd sd ed ps cs vs).protocols.map Entry.percent).sum
        = ((stats.protocols.map Prod.snd).sum : ℚ) / (stats.total : ℚ)) ∧
    (((toJSONStruct cm nc ns stats gd sd ed ps cs vs).ciphers.map Entry.percent).sum
        = ((stats.ciphers.map Prod.snd).sum : ℚ) / (stats.total : ℚ)) ∧
    (((toJSONStruct cm nc ns stats gd sd ed ps cs vs).curves.map Entry.percent).sum
        = ((stats.curves.map Prod.snd).sum : ℚ) / (stats.total : ℚ)) := by
  refine ⟨?_, ?_, ?_⟩
  · rw [show (toJSONStruct cm nc ns stats gd sd ed ps cs vs).protocols
        = toEntries stats.total getProtocolName ps from rfl]
    rw [toEntries_percent_sum, ((hp.1.map intByInt64.v).sum_eq).symm, kvList_map_v]
  · rw [show (toJSONStruct cm nc ns stats gd sd ed ps cs vs).ciphers
        = toEntries stats.total (getCipherName cm ns) cs from rfl]
    rw [toEntries_percent_sum, ((hc.1.map intByInt64.v).sum_eq).symm, kvList_map_v]
  · rw [show (toJSONStruct cm nc ns stats gd sd ed ps cs vs).curves
        = toEntries stats.total (getCurveName nc) vs from rfl]
    rw [toEntries_percent_sum, ((hv.1.map intByInt64.v).sum_eq).symm, kvList_map_v]

/-- Witness for the amended C1 theorem at the Scenario A run. -/
theorem toJSONStruct_percent_sums_witness :
    ((scenarioAReport.ciphers.map Entry.percent).sum
        = ((scenarioATally.ciphers.map Prod.snd).sum : ℚ) / (scenarioATally.total : ℚ)) := by
  exact (toJSONStruct_percent_sums (fun _ => none) (fun _ => none)
    [(4865, "TLS_AES_128_GCM_SHA256")] scenarioATally 0 0 0
    [⟨769, 100⟩, ⟨770, 100⟩, ⟨771, 100⟩, ⟨772, 100⟩] [⟨4865, 100⟩] [⟨29, 100⟩]
    ⟨List.Perm.refl _, by decide⟩ ⟨List.Perm.refl _, by decide⟩
    ⟨List.Perm.refl _, by decide⟩).2.1

/-- Claim C2 (code bug): when the cached artifact exists but cannot be
parsed, GetStats with the force flag unset does NOT recompute: the inner
shadowed error variable swallows the parse failure and the function falls
through to returning the zero-value report with a nil error. The spec's
stated recovery (treat as NoReport and recompute) is the evident intent;
the shadowing of the named return e by the ReadFile short declaration is
the slip. This theorem evaluates the model at the failing input. -/
theorem getStats_corrupt_cache_no_recompute :
    getStatsNoForce .unparsable 0 ⟨1, 0, 0, [], [], []⟩
      = ⟨false, none, zeroTLSStatistics, true⟩ ∧
    zeroTLSStatistics ≠ ⟨1, 0, 0, [], [], []⟩ :=
  ⟨rfl, by decide⟩

/-- Claim C3, counterexample: the comparator kv.Less compares only counts,
so a permutation with equal-count entries in descending identifier order is
a legitimate sort.Sort outcome (here reachable from map iteration order
[(2,5),(1,5)], on which the sort does nothing); the claimed
ascending-identifier tie-break fails on it. -/
theorem sort_tie_break_fails :
    goSortSpec [⟨1, 5⟩, ⟨2, 5⟩] [⟨2, 5⟩, ⟨1, 5⟩] ∧
    ¬ List.Pairwise (fun a b : intByInt64 => a.v > b.v ∨ (a.v = b.v ∧ a.k < b.k))
      [⟨2, 5⟩, ⟨1, 5⟩] :=
  ⟨⟨List.Perm.swap (⟨2, 5⟩ : intByInt64) ⟨1, 5⟩ [], by decide⟩, by decide⟩

/-- Claim C3, amended: for every AggregateTally with positive totalWeight,
each of the three ReportEntry sequences produced by the Report Builder is
sorted by non-increasing count (equivalently non-increasing percent); the
relative order of entries with equal counts is NOT fixed — it depends on
map iteration order and the unstable sort. -/
theorem toJSONStruct_sorted_desc (cm nc : Int → Option String)
    (ns : List (Int × String)) (stats : TLSStats) (gd sd ed : Int)
    (ps cs vs : List intByInt64)
    (hp : goSortSpec (kvList stats.protocols) ps)
    (hc : goSortSpec (kvList stats.ciphers) cs)
    (hv : goSortSpec (kvList stats.curves) vs)
    (ht : 0 < stats.total) :
    ((toJSONStruct cm nc ns stats gd sd ed ps cs vs).protocols.Pairwise
        (fun a b => b.percent ≤ a.percent)) ∧
    ((toJSONStruct cm nc ns stats gd sd ed ps cs vs).ciphers.Pairwise
        (fun a b => b.percent ≤ a.percent)) ∧
    ((toJSONStruct cm nc ns stats gd sd ed ps cs vs).curves.Pairwise
        (fun a b => b.percent ≤ a.percent)) :=
  ⟨toEntries_pairwise_desc stats.total ht getProtocolName _ ps hp,
   toEntries_pairwise_desc stats.total ht (getCipherName cm ns) _ cs hc,
   toEntries_pairwise_desc stats.total ht (getCurveName nc) _ vs hv⟩

/-- Witness for the amended C3 theorem at the Scenario A run. -/
theorem toJSONStruct_sorted_desc_witness :
    scenarioAReport.protocols.Pairwise (fun a b => b.percent ≤ a.percent) :=
  (toJSONStruct_sorted_desc (fun _ => none) (fun _ => none)
    [(4865, "TLS_AES_128_GCM_SHA256")] scenarioATally 0 0 0
    [⟨769, 100⟩, ⟨770, 100⟩, ⟨771, 100⟩, ⟨772, 100⟩] [⟨4865, 100⟩] [⟨29, 100⟩]
    ⟨List.Perm.refl _, by decide⟩ ⟨List.Perm.refl _, by decide⟩
    ⟨List.Perm.refl _, by decide⟩ (by decide)).1

/-- Claim C4: a UsageRecord whose JoinKey matches no CapabilityProfile
contributes nothing to the aggregate tally: removing it from the input
leaves protocolCounts, cipherCounts, curveCounts and totalWeight (the whole
TLSStats) unchanged; its weight is tracked only in the unmatched diagnostic
map, which never feeds the tally. -/
theorem unmatched_record_contributes_nothing (t : VersionTables)
    (l1 l2 : List Browser) (devices : List Device) (r : Browser)
    (h : (deviceKeySet devices).contains (browserKey t r) = false) :
    analyseStats t (l1 ++ r :: l2) devices = analyseStats t (l1 ++ l2) devices := by
  unfold analyseStats
  congr 1
  unfold joinRecords
  rw [joinRecords_browserMap_proj, joinRecords_browserMap_proj,
    List.foldl_append, List.foldl_append, List.foldl_cons]
  congr 1
  unfold browserMapStep
  rw [if_neg (by simpa using h)]

/-- Witness for C4: adding one unmatched record to Scenario A changes
nothing. -/
theorem unmatched_record_contributes_nothing_witness :
    analyseStats emptyTables [chromeRecord, unmatchedRecord] [chromeDevice]
      = analyseStats emptyTables [chromeRecord] [chromeDevice] :=
  unmatched_record_contributes_nothing emptyTables [chromeRecord] []
    [chromeDevice] unmatchedRecord (by decide)

/-- Claim C5: on exactly one UsageRecord (Chrome 90, weight 100) and one
CapabilityProfile (Chrome 90, protocols 769..772, cipher 4865, curve 29),
the engine yields protocolCounts = 769..772 each at 100, cipherCounts =
4865 at 100, curveCounts = 29 at 100, and totalWeight = 100. The version
tables are outside the given sources; the hypothesis states what Scenario A
presumes of them — Chrome version 90 is not collapsed away. -/
theorem scenarioA_aggregation (t : VersionTables)
    (h : lookupVers t.chromeVers "90" = none) :
    (analyseStats t [chromeRecord] [chromeDevice]).protocols
        = [(769, 100), (770, 100), (771, 100), (772, 100)] ∧
    (analyseStats t [chromeRecord] [chromeDevice]).ciphers = [(4865, 100)] ∧
    (analyseStats t [chromeRecord] [chromeDevice]).curves = [(29, 100)] ∧
    (analyseStats t [chromeRecord] [chromeDevice]).total = 100 := by
  have hkey : browserKey t chromeRecord = "Chrome:90" := by
    show collapseVersion t "Chrome:90" = "Chrome:90"
    simp [collapseVersion, show splitColon "Chrome:90" = ["Chrome", "90"] from rfl, h]
  have hstate : joinRecords t [chromeRecord] (deviceKeySet [chromeDevice])
      = ⟨1, 0, [], [("Chrome:90", 100)]⟩ := by
    unfold joinRecords deviceKeySet
    simp only [List.foldl_cons, List.foldl_nil, joinStep, hkey]
    decide
  unfold analyseStats
  rw [hstate]
  decide

/-- Witness for C5 with concrete (empty) version tables. -/
theorem scenarioA_aggregation_witness :
    (analyseStats emptyTables [chromeRecord] [chromeDevice]).total = 100 :=
  (scenarioA_aggregation emptyTables rfl).2.2.2

/-- Claim C6, counterexample: two UsageRecords normalizing to the same
unmatched JoinKey leave the unmatched diagnostic counter for that key at 2,
not 1 — the counter is incremented once per record, not once per distinct
key. -/
theorem unmatched_diagnostic_counts_records :
    stallyGet (joinRecords emptyTables [unmatchedRecord, unmatchedRecord] []).m
      "NoSuchBrowser:1" = 2 ∧ (2 : Int) ≠ 1 :=
  ⟨by decide, by decide⟩

/-- Claim C6, amended: processing one more UsageRecord with an unmatched
JoinKey increments the unmatched diagnostic counter for that key by exactly
one — once per record, so a key reached by n records counts n. -/
theorem unmatched_diagnostic_per_record (t : VersionTables) (bs : List Browser)
    (dks : List String) (r : Browser)
    (h : dks.contains (browserKey t r) = false) :
    stallyGet (joinRecords t (bs ++ [r]) dks).m (browserKey t r)
      = stallyGet (joinRecords t bs dks).m (browserKey t r) + 1 := by
  unfold joinRecords
  rw [List.foldl_append, List.foldl_cons, List.foldl_nil]
  unfold joinStep
  rw [if_neg (by simpa using h)]
  exact stallyGet_sbumpBy_self _ _ _

/-- Witness for the amended C6 theorem. -/
theorem unmatched_diagnostic_per_record_witness :
    stallyGet (joinRecords emptyTables [unmatchedRecord] []).m
        (browserKey emptyTables unmatchedRecord)
      = stallyGet (joinRecords emptyTables [] []).m
          (browserKey emptyTables unmatchedRecord) + 1 :=
  unmatched_diagnostic_per_record emptyTables [] [] unmatchedRecord (by decide)

/-- Claim C7: with the force flag unset and a parseable cached report, a
generation date older than the six-month cutoff leads to archiving under a
name derived from that same generation date followed by recomputation,
while a generation date younger than the cutoff leads to the cached report
being returned as is, with no recomputation and no archive. -/
theorem getStats_staleness_policy (r : TLSStatistics) (cutoff : Int)
    (fresh : TLSStatistics) :
    (r.generationDate < cutoff →
      getStatsNoForce (.parsed r) cutoff fresh
        = ⟨true, some r.generationDate, fresh, true⟩) ∧
    (cutoff < r.generationDate →
      getStatsNoForce (.parsed r) cutoff fresh = ⟨false, none, r, true⟩) := by
  constructor
  · intro h
    simp [getStatsNoForce, renameCurrentStats, h]
  · intro h
    simp [getStatsNoForce, not_lt.mpr (le_of_lt h)]

/-- Witness for C7: a report from day 0 against cutoff 5 is archived and
recomputed; a report from day 7 is served from cache. -/
theorem getStats_staleness_policy_witness :
    (getStatsNoForce (.parsed ⟨0, 0, 0, [], [], []⟩) 5 ⟨9, 0, 0, [], [], []⟩
      = ⟨true, some 0, ⟨9, 0, 0, [], [], []⟩, true⟩) ∧
    (getStatsNoForce (.parsed ⟨7, 0, 0, [], [], []⟩) 5 ⟨9, 0, 0, [], [], []⟩
      = ⟨false, none, ⟨7, 0, 0, [], [], []⟩, true⟩) :=
  ⟨(getStats_staleness_policy ⟨0, 0, 0, [], [], []⟩ 5 ⟨9, 0, 0, [], [], []⟩).1 (by norm_num),
   (getStats_staleness_policy ⟨7, 0, 0, [], [], []⟩ 5 ⟨9, 0, 0, [], [], []⟩).2 (by norm_num)⟩

/-- Claim C8: a matched CapabilityProfile whose highestProtocol is strictly
below its effective lowest protocol (max of lowestProtocol and the floor
768) adds no protocol entries, yet its weight still reaches totalWeight and
each of its cipher and curve identifiers is still bumped by the full
weight. -/
theorem empty_protocol_range_still_counts (bs : List (String × Int))
    (devices : List Device) (key : String) (c : Int) (d : Device) (i j : Int)
    (hfind : mapGet (buildDeviceMap devices) key = some d)
    (hrange : d.highestProtocol < max 768 d.lowestProtocol) :
    (getTLSStats (bs ++ [(key, c)]) devices).protocols
        = (getTLSStats bs devices).protocols ∧
    (getTLSStats (bs ++ [(key, c)]) devices).total
        = (getTLSStats bs devices).total + c ∧
    tallyGet (getTLSStats (bs ++ [(key, c)]) devices).ciphers i
        = tallyGet (getTLSStats bs devices).ciphers i + c * (d.suiteIds.count i : Int) ∧
    tallyGet (getTLSStats (bs ++ [(key, c)]) devices).curves j
        = tallyGet (getTLSStats bs devices).curves j + c * (d.ellipticCurves.count j : Int) := by
  unfold getTLSStats
  rw [List.foldl_append]
  simp only [List.foldl_cons, List.foldl_nil]
  simp only [getTLSStatsStep, hfind]
  rw [protocolFloor_eq_max, protoRange_eq_nil _ _ hrange]
  refine ⟨?_, ?_, ?_, ?_⟩
  · trivial
  · trivial
  · exact tallyGet_foldl_bumpBy _ _ _ _
  · exact tallyGet_foldl_bumpBy _ _ _ _

/-- Witness for C8: a device claiming protocols only up to 700 (below the
768 floor) with cipher 10 and curve 20, weight 5. -/
theorem empty_protocol_range_still_counts_witness :
    (getTLSStats [("Old:1", 5)] [⟨"Old", "", "1", 766, 700, [10], ["X"], [20]⟩]).protocols
        = (getTLSStats [] [⟨"Old", "", "1", 766, 700, [10], ["X"], [20]⟩]).protocols ∧
    (getTLSStats [("Old:1", 5)] [⟨"Old", "", "1", 766, 700, [10], ["X"], [20]⟩]).total
        = (getTLSStats [] [⟨"Old", "", "1", 766, 700, [10], ["X"], [20]⟩]).total + 5 ∧
    tallyGet (getTLSStats [("Old:1", 5)] [⟨"Old", "", "1", 766, 700, [10], ["X"], [20]⟩]).ciphers 10
        = tallyGet (getTLSStats [] [⟨"Old", "", "1", 766, 700, [10], ["X"], [20]⟩]).ciphers 10
            + 5 * (([10] : List Int).count 10 : Int) ∧
    tallyGet (getTLSStats [("Old:1", 5)] [⟨"Old", "", "1", 766, 700, [10], ["X"], [20]⟩]).curves 20
        = tallyGet (getTLSStats [] [⟨"Old", "", "1", 766, 700, [10], ["X"], [20]⟩]).curves 20
            + 5 * (([20] : List Int).count 20 : Int) :=
  empty_protocol_range_still_counts [] [⟨"Old", "", "1", 766, 700, [10], ["X"], [20]⟩]
    "Old:1" 5 ⟨"Old", "", "1", 766, 700, [10], ["X"], [20]⟩ 10 20 (by decide) (by decide)

/-- Claim C9: JoinKey derivation is a pure, deterministic function of the
(browser family, major version) pair: with the same static tables, two
records agreeing on family and major version map to the same JoinKey,
whatever their date, OS fields or weight — there is no dependence on
iteration order, time, or other mutable state. -/
theorem browserKey_pure_function (t : VersionTables) (b1 b2 : Browser)
    (hf : b1.browserFamily = b2.browserFamily)
    (hv : b1.browserMajorVersion = b2.browserMajorVersion) :
    browserKey t b1 = browserKey t b2 := by
  unfold browserKey
  rw [hf, hv]

/-- Witness for C9: same family and version, different date, OS and weight. -/
theorem browserKey_pure_function_witness :
    browserKey emptyTables ⟨0, "Chrome", "90", "Windows", "10", 100⟩
      = browserKey emptyTables ⟨99, "Chrome", "90", "Linux", "5", 7⟩ :=
  browserKey_pure_function emptyTables ⟨0, "Chrome", "90", "Windows", "10", 100⟩
    ⟨99, "Chrome", "90", "Linux", "5", 7⟩ rfl rfl

/-- Claim C10: under the spec's parallel-array invariant (SuiteNames and
SuiteIds of every device have equal length), the non-standard cipher-name
lookup cipherMaps accesses SuiteNames only in bounds and is total (never
hits the out-of-bounds panic modelled as none). The invariant is
load-bearing: cipherMaps indexes SuiteNames at each new SuiteIds position
without any length check. -/
theorem cipherMaps_total_of_parallel (devices : List Device)
    (h : ∀ d ∈ devices, d.suiteNames.length = d.suiteIds.length) :
    (cipherMaps devices).isSome = true :=
  cipherMapsGo_isSome devices [] h

/-- Witness for C10 on the Scenario A device. -/
theorem cipherMaps_total_of_parallel_witness :
    (cipherMaps [chromeDevice]).isSome = true :=
  cipherMaps_total_of_parallel [chromeDevice] (by decide)

end TlsStats
